import Mathlib

/-!
Shallow embedding of the platformer physics core from `plat.py` / `tilemap.py`.

Python floats are modelled as exact rationals (`ℚ`), Python ints as `ℤ`.
`int(...)` applied to a nonnegative float is `Int.floor`; applied to a general
float it truncates toward zero.  Python 3's `round` rounds half to even.
The map's tile list is a `List ℤ`; list indexing (always in bounds for
well-formed maps) is `List.getD`.
-/

namespace Plat

/-- Floor of a rational, written so that the kernel can evaluate it
(`Int.floor` on `ℚ` goes through irreducible `Rat` field operations).
Equals `Int.floor` by `qfloor_eq_floor`. -/
def qfloor (q : ℚ) : ℤ := Int.fdiv q.num q.den

theorem qfloor_eq_floor (q : ℚ) : qfloor q = ⌊q⌋ := by
  rw [Rat.floor_def, qfloor, Int.fdiv_eq_ediv _ (Int.ofNat_nonneg q.den)]

/-- Embedding of Python 3 `round` composed with `int`: round to the nearest
integer, ties to even (banker's rounding). -/
def pyRound (q : ℚ) : ℤ :=
  let f := qfloor q
  let r := q - (f : ℚ)
  if r < 1/2 then f
  else if 1/2 < r then f + 1
  else if f % 2 = 0 then f else f + 1

/-- `Point2d` from `plat.py`: a pair of floats, used for positions, velocities
and sizes. -/
structure Point2d where
  x : ℚ
  y : ℚ
deriving DecidableEq, Repr

@[ext] theorem Point2d.ext_thm {a b : Point2d} (hx : a.x = b.x) (hy : a.y = b.y) : a = b := by
  cases a; cases b; cases hx; cases hy; rfl

instance : Add Point2d := ⟨fun a b => ⟨a.x + b.x, a.y + b.y⟩⟩

instance : HMul Point2d ℚ Point2d := ⟨fun p s => ⟨p.x * s, p.y * s⟩⟩

@[simp] theorem Point2d.add_x (a b : Point2d) : (a + b).x = a.x + b.x := rfl

@[simp] theorem Point2d.add_y (a b : Point2d) : (a + b).y = a.y + b.y := rfl

@[simp] theorem Point2d.smul_x (p : Point2d) (s : ℚ) : (p * s).x = p.x * s := rfl

@[simp] theorem Point2d.smul_y (p : Point2d) (s : ℚ) : (p * s).y = p.y * s := rfl

/-- Collision axes reported by `move_box`. -/
inductive Collision where
  | X
  | Y
  | CORNER
deriving DecidableEq, Repr

def AIR : ℤ := 0

def START : ℤ := 78

def FINISH : ℤ := 110

def TILE_SIZE : Point2d := ⟨64, 64⟩

def PLAYER_SIZE : Point2d := ⟨64, 64⟩

/-- The tile map: `width`, `height` and a row-major list of tile values. -/
structure Map where
  width : ℕ
  height : ℕ
  tiles : List ℤ
deriving DecidableEq, Repr

/-- The index `ny * width + nx` computed inside `Map.get_tile`:
each coordinate is divided by the 64-unit tile size truncating toward zero
(Python `int(x / TILE_SIZE.x)`), then clamped into `[0, width-1]` resp.
`[0, height-1]` (`min(max(.., 0), .. - 1)`). -/
def Map.tileIndex (m : Map) (x y : ℤ) : ℤ :=
  min (max (Int.tdiv y 64) 0) ((m.height : ℤ) - 1) * (m.width : ℤ) +
    min (max (Int.tdiv x 64) 0) ((m.width : ℤ) - 1)

/-- `Map.get_tile` from `plat.py`. -/
def Map.get_tile (m : Map) (x y : ℤ) : ℤ := m.tiles.getD (m.tileIndex x y).toNat 0

/-- `Map.is_tile_solid`: the tile value is not in `{AIR, START, FINISH}`. -/
def Map.is_tile_solid (m : Map) (x y : ℤ) : Bool :=
  decide (¬(m.get_tile x y = AIR ∨ m.get_tile x y = START ∨ m.get_tile x y = FINISH))

/-- `Map.is_solid`: round both coordinates (Python `round`, i.e. `pyRound`),
then look the tile up. -/
def Map.is_solid (m : Map) (p : Point2d) : Bool :=
  m.is_tile_solid (pyRound p.x) (pyRound p.y)

/-- `Map.on_ground`: either bottom corner, one unit below the box, is solid. -/
def Map.on_ground (m : Map) (pos size : Point2d) : Bool :=
  let s := size * (1/2 : ℚ)
  m.is_solid ⟨pos.x - s.x, pos.y + s.y + 1⟩ || m.is_solid ⟨pos.x + s.x, pos.y + s.y + 1⟩

/-- `Map.test_box`: some corner of the box at `pos`, with corner offsets
`size * 0.5`, is solid. -/
def Map.test_box (m : Map) (pos size : Point2d) : Bool :=
  let s := size * (1/2 : ℚ)
  m.is_solid ⟨pos.x - s.x, pos.y - s.y⟩ || m.is_solid ⟨pos.x + s.x, pos.y - s.y⟩ ||
    m.is_solid ⟨pos.x - s.x, pos.y + s.y⟩ || m.is_solid ⟨pos.x + s.x, pos.y + s.y⟩

/-- One iteration of the `for` loop in `Map.move_box`, acting on the loop
state `(result, pos, vel)`.  In the source the Y branch mutates `new_pos.y`
and `vel.y` before the X test runs, but the X test reads only `new_pos.x` and
`pos.y`, neither of which the Y branch touches, so both single-axis tests can
be evaluated up front. -/
def Map.moveStep (m : Map) (size : Point2d) (fraction : ℚ)
    (st : Finset Collision × Point2d × Point2d) : Finset Collision × Point2d × Point2d :=
  let result := st.1
  let pos := st.2.1
  let vel := st.2.2
  let new_pos := pos + vel * fraction
  if m.test_box new_pos size then
    let tY := m.test_box ⟨pos.x, new_pos.y⟩ size
    let tX := m.test_box ⟨new_pos.x, pos.y⟩ size
    if tY || tX then
      (if tX then insert Collision.X (if tY then insert Collision.Y result else result)
        else insert Collision.Y result,
       ⟨if tX then pos.x else new_pos.x, if tY then pos.y else new_pos.y⟩,
       ⟨if tX then 0 else vel.x, if tY then 0 else vel.y⟩)
    else
      (insert Collision.CORNER result, pos, ⟨0, 0⟩)
  else
    (result, new_pos, vel)

/-- `range(0, maximum + 1)` iteration of `Map.moveStep`. -/
def Map.moveLoop (m : Map) (size : Point2d) (fraction : ℚ) :
    ℕ → Finset Collision × Point2d × Point2d → Finset Collision × Point2d × Point2d
  | 0, st => st
  | n + 1, st => m.moveLoop size fraction n (m.moveStep size fraction st)

/-- `Map.move_box` from `plat.py`.  `distance = vel.len()` is `√(vx² + vy²)`,
and `maximum = int(distance)` is its integer part, computed exactly on
rationals as `Nat.sqrt ⌊vx² + vy²⌋` (for a real `r ≥ 0` and `n : ℕ`,
`n ≤ √r ↔ n² ≤ ⌊r⌋`, so `⌊√r⌋ = Nat.sqrt ⌊r⌋`).  The `distance < 0` guard of
the source is unreachable but preserved. -/
def Map.move_box (m : Map) (pos vel size : Point2d) :
    Finset Collision × Point2d × Point2d :=
  let distSq := vel.x * vel.x + vel.y * vel.y
  let maximum := Nat.sqrt (qfloor distSq).toNat
  if distSq < 0 then (∅, pos, vel)
  else
    let fraction : ℚ := 1 / ((maximum : ℚ) + 1)
    m.moveLoop size fraction (maximum + 1) (∅, pos, vel)

/-- `Player` from `plat.py`: position and velocity (the texture is rendering
state, outside the physics core). -/
structure Player where
  pos : Point2d
  vel : Point2d
deriving DecidableEq, Repr

/-- The state `Player.restart` resets to: spawn point `(170, 500)`, zero
velocity. -/
def Player.restartState : Player := ⟨⟨170, 500⟩, ⟨0, 0⟩⟩

/-- The input intents consumed by one physics tick. -/
structure Inputs where
  left : Bool
  right : Bool
  jump : Bool
  restart : Bool
deriving DecidableEq, Repr

/-- The physics-relevant part of `Game`. -/
structure Game where
  map : Map
  player : Player
  inputs : Inputs
deriving DecidableEq, Repr

/-- The body of one physics tick after the restart check: ground test, jump,
gravity (`vel.y += 0.75`), horizontal blending, clamping to `[-8, 8]`, and
`move_box`. -/
def physicsBody (m : Map) (inputs : Inputs) (player : Player) : Player :=
  let ground := m.on_ground player.pos PLAYER_SIZE
  let player := if inputs.jump && ground then ⟨player.pos, ⟨player.vel.x, -21⟩⟩ else player
  let direction : ℚ := (if inputs.right then 1 else 0) - (if inputs.left then 1 else 0)
  let vy := player.vel.y + 3/4
  let vx := if ground then (1/2) * player.vel.x + 4 * direction
    else (19/20) * player.vel.x + 2 * direction
  let vx := min (max vx (-8)) 8
  let r := m.move_box player.pos ⟨vx, vy⟩ PLAYER_SIZE
  ⟨r.2.1, r.2.2⟩

/-- `Game.physics` from `plat.py`, written out statement by statement:
if the restart intent is set the player is reset, and then the tick
continues (there is no early return in the source). -/
def Game.physics (g : Game) : Game :=
  let player := if g.inputs.restart then Player.restartState else g.player
  let ground := g.map.on_ground player.pos PLAYER_SIZE
  let player := if g.inputs.jump && ground then ⟨player.pos, ⟨player.vel.x, -21⟩⟩ else player
  let direction : ℚ := (if g.inputs.right then 1 else 0) - (if g.inputs.left then 1 else 0)
  let vy := player.vel.y + 3/4
  let vx := if ground then (1/2) * player.vel.x + 4 * direction
    else (19/20) * player.vel.x + 2 * direction
  let vx := min (max vx (-8)) 8
  let r := g.map.move_box player.pos ⟨vx, vy⟩ PLAYER_SIZE
  ⟨g.map, ⟨r.2.1, r.2.2⟩, g.inputs⟩

/-- The `Map.__init__` parsing loop over the rows of the map file.  Each row
is the list of integers parsed from one line (empty words are skipped by the
source before this loop).  State: current `width`, `height`, accumulated
`tiles`. -/
def loadMapAux (fileName : String) :
    List (List ℤ) → ℕ → ℕ → List ℤ → Except String Map
  | [], width, height, tiles => Except.ok ⟨width, height, tiles⟩
  | row :: rest, width, height, tiles =>
    let w := row.length
    if 0 < width ∧ width ≠ w then
      Except.error ("Incompatible line length in map " ++ fileName)
    else
      loadMapAux fileName rest w (height + 1) (tiles ++ row)

/-- Map construction from parsed rows (`Map.__init__`). -/
def loadMap (fileName : String) (rows : List (List ℤ)) : Except String Map :=
  loadMapAux fileName rows 0 0 []

/-- Python `int()` on a float: truncation toward zero. -/
def truncQ (q : ℚ) : ℤ := if 0 ≤ q then qfloor q else -(qfloor (-q))

/-- `new_tick = int((time() - start_time) * 50)` from `main`. -/
def currentTick (e : ℚ) : ℤ := truncQ (e * 50)

/-- The integers `a, a+1, ..., b-1` (Python `range(a, b)`), empty when
`b ≤ a`. -/
def rangeZ (a b : ℤ) : List ℤ := (List.range (b - a).toNat).map fun i : ℕ => a + (i : ℤ)

/-- The ticks processed by the game loop, in order: each frame with elapsed
time `e` runs `range(last_tick, new_tick)` physics ticks and then sets
`last_tick = new_tick`. -/
def tickList : ℤ → List ℚ → List ℤ
  | _, [] => []
  | last, e :: rest => rangeZ last (currentTick e) ++ tickList (currentTick e) rest

/-- The tick counter after the final frame. -/
def finalTick (samples : List ℚ) : ℤ := currentTick (samples.getLast?.getD 0)

theorem point_add_zero_smul (p : Point2d) (f : ℚ) : p + (⟨0, 0⟩ : Point2d) * f = p := by
  ext <;> simp

theorem moveStep_nocol (m : Map) (size : Point2d) (fraction : ℚ)
    (cols : Finset Collision) (pos vel : Point2d)
    (h : m.test_box (pos + vel * fraction) size = false) :
    m.moveStep size fraction (cols, pos, vel) = (cols, pos + vel * fraction, vel) := by
  simp only [Map.moveStep, h]
  rfl

theorem moveStep_pos_safe (m : Map) (size : Point2d) (fraction : ℚ)
    (st : Finset Collision × Point2d × Point2d) (h : m.test_box st.2.1 size = false) :
    m.test_box (m.moveStep size fraction st).2.1 size = false := by
  obtain ⟨cols, pos, vel⟩ := st
  simp only at h
  rcases Bool.eq_false_or_eq_true (m.test_box (pos + vel * fraction) size) with hc | hc
  · rcases Bool.eq_false_or_eq_true (m.test_box ⟨pos.x, (pos + vel * fraction).y⟩ size)
        with hY | hY <;>
      rcases Bool.eq_false_or_eq_true (m.test_box ⟨(pos + vel * fraction).x, pos.y⟩ size)
        with hX | hX <;>
      simp only [Map.moveStep, hc, hY, hX, Bool.or_self, Bool.true_or, Bool.or_true,
        Bool.false_or, Bool.or_false, Bool.false_eq_true, if_true, if_false] <;>
      exact h
  · simp only [Map.moveStep, hc, Bool.false_eq_true, if_false]

theorem moveLoop_pos_safe (m : Map) (size : Point2d) (fraction : ℚ) :
    ∀ (n : ℕ) (st : Finset Collision × Point2d × Point2d),
      m.test_box st.2.1 size = false →
      m.test_box (m.moveLoop size fraction n st).2.1 size = false := by
  intro n
  induction n with
  | zero => intro st h; exact h
  | succ k ih =>
    intro st h
    rw [Map.moveLoop]
    exact ih _ (moveStep_pos_safe m size fraction st h)

/-- C2, counterexample: `is_solid` rounds through `pyRound`, which does NOT
round ties away from zero: `0.5` rounds to `0` (away-from-zero would give
`1`), `2.5` rounds to `2` (not `3`), `-2.5` rounds to `-2` (not `-3`).
Python 3's `round` rounds ties to even. -/
theorem is_solid_round_cex :
    pyRound ((1 : ℚ)/2) = 0 ∧ pyRound ((5 : ℚ)/2) = 2 ∧ pyRound (-(5 : ℚ)/2) = -2 := by
  with_unfolding_all decide

/-- C2, amended: `is_solid` rounds each coordinate with `pyRound` before the
tile lookup, and `pyRound` rounds a coordinate exactly halfway between two
integers to the even neighbour (ties to even, Python 3 `round`), not away
from zero. -/
theorem is_solid_round_half_even :
    (∀ (m : Map) (p : Point2d), m.is_solid p = m.is_tile_solid (pyRound p.x) (pyRound p.y)) ∧
    (∀ n : ℤ, pyRound ((n : ℚ) + 1/2) = if n % 2 = 0 then n else n + 1) := by
  refine ⟨fun m p => rfl, fun n => ?_⟩
  have hf : qfloor ((n : ℚ) + 1/2) = n := by
    rw [qfloor_eq_floor]
    have h0 : ⌊(1/2 : ℚ)⌋ = 0 := by
      rw [Int.floor_eq_zero_iff, Set.mem_Ico]
      constructor <;> norm_num
    rw [Int.floor_int_add, h0, add_zero]
  simp only [pyRound, hf]
  have hr : (n : ℚ) + 1/2 - ((n : ℤ) : ℚ) = 1/2 := by ring
  rw [hr, if_neg (lt_irrefl _), if_neg (lt_irrefl _)]

/-- C3, counterexample: with the player's actual `test_box` argument
`PLAYER_SIZE = (64, 64)` the box collides on a map whose only solid tile is
the second one, but the claim's predicted quarter-size test (corner offsets
of 16, i.e. passing `(32, 32)`) reports no collision at the same position:
the corner offsets of the player's test are 32, not 16. -/
theorem test_box_quarter_cex :
    Map.test_box ⟨2, 1, [0, 1]⟩ ⟨32, 32⟩ ⟨64, 64⟩ = true ∧
      Map.test_box ⟨2, 1, [0, 1]⟩ ⟨32, 32⟩ ⟨32, 32⟩ = false := by
  with_unfolding_all decide

/-- C3, amended: `test_box` reports a collision iff one of the four corner
points at `pos ± size * 0.5` (component-wise) is solid; with the player's
passed size of 64×64 the corner offsets are 32 (half of the 64×64 sprite,
not quarter-size offsets of 16). -/
theorem test_box_half_size_corners :
    (∀ (m : Map) (pos size : Point2d),
      m.test_box pos size =
        (m.is_solid ⟨pos.x - size.x * (1/2), pos.y - size.y * (1/2)⟩ ||
          m.is_solid ⟨pos.x + size.x * (1/2), pos.y - size.y * (1/2)⟩ ||
          m.is_solid ⟨pos.x - size.x * (1/2), pos.y + size.y * (1/2)⟩ ||
          m.is_solid ⟨pos.x + size.x * (1/2), pos.y + size.y * (1/2)⟩)) ∧
    (∀ (m : Map) (pos : Point2d),
      m.test_box pos PLAYER_SIZE =
        (m.is_solid ⟨pos.x - 32, pos.y - 32⟩ || m.is_solid ⟨pos.x + 32, pos.y - 32⟩ ||
          m.is_solid ⟨pos.x - 32, pos.y + 32⟩ || m.is_solid ⟨pos.x + 32, pos.y + 32⟩)) := by
  constructor
  · intro m pos size
    rfl
  · intro m pos
    norm_num [Map.test_box, PLAYER_SIZE]

/-- C4: in a sub-step whose combined move collides, if only the X-displaced
single-axis test `(candidate.x, pos.y)` is solid then the resolver records
`Collision.X`, freezes `candidate.x` to `pos.x` and zeroes `vel.x`, leaving
`candidate.y` and `vel.y` unchanged; symmetrically for a Y-only collision. -/
theorem moveStep_single_axis (m : Map) (size : Point2d) (fraction : ℚ)
    (cols : Finset Collision) (pos vel : Point2d) :
    (m.test_box (pos + vel * fraction) size = true →
      m.test_box ⟨pos.x, (pos + vel * fraction).y⟩ size = false →
      m.test_box ⟨(pos + vel * fraction).x, pos.y⟩ size = true →
      m.moveStep size fraction (cols, pos, vel) =
        (insert Collision.X cols, ⟨pos.x, (pos + vel * fraction).y⟩, ⟨0, vel.y⟩)) ∧
    (m.test_box (pos + vel * fraction) size = true →
      m.test_box ⟨pos.x, (pos + vel * fraction).y⟩ size = true →
      m.test_box ⟨(pos + vel * fraction).x, pos.y⟩ size = false →
      m.moveStep size fraction (cols, pos, vel) =
        (insert Collision.Y cols, ⟨(pos + vel * fraction).x, pos.y⟩, ⟨vel.x, 0⟩)) := by
  constructor <;> intro h1 h2 h3 <;>
    simp only [Map.moveStep, h1, h2, h3, Bool.true_or, Bool.or_true, Bool.false_or,
      Bool.or_false, Bool.false_eq_true, if_true, if_false]

/-- C4, witness: a body moving diagonally right-down into a vertical wall
(right column solid) keeps its full Y motion, ends with `vel.x = 0` and
`Collision.X` reported; a body moving into a horizontal wall keeps its X
motion, ends with `vel.y = 0` and `Collision.Y` reported. -/
theorem moveStep_single_axis_witness :
    Map.moveStep ⟨2, 2, [0, 1, 0, 1]⟩ ⟨0, 0⟩ 1 (∅, ⟨30, 30⟩, ⟨40, 10⟩) =
        (insert Collision.X ∅, ⟨30, 40⟩, ⟨0, 10⟩) ∧
      Map.moveStep ⟨2, 2, [0, 0, 1, 1]⟩ ⟨0, 0⟩ 1 (∅, ⟨30, 30⟩, ⟨10, 40⟩) =
        (insert Collision.Y ∅, ⟨40, 30⟩, ⟨10, 0⟩) := by
  constructor
  · have h := (moveStep_single_axis ⟨2, 2, [0, 1, 0, 1]⟩ ⟨0, 0⟩ 1 ∅ ⟨30, 30⟩ ⟨40, 10⟩).1
      (by with_unfolding_all decide) (by with_unfolding_all decide)
      (by with_unfolding_all decide)
    exact h.trans (by with_unfolding_all decide)
  · have h := (moveStep_single_axis ⟨2, 2, [0, 0, 1, 1]⟩ ⟨0, 0⟩ 1 ∅ ⟨30, 30⟩ ⟨10, 40⟩).2
      (by with_unfolding_all decide) (by with_unfolding_all decide)
      (by with_unfolding_all decide)
    exact h.trans (by with_unfolding_all decide)

/-- C5: in a sub-step whose combined move collides while neither single-axis
test is solid, the resolver records `Collision.CORNER`, discards all movement
(`candidate = pos`) and zeroes the whole velocity; and with zero velocity
every later sub-step leaves the position unchanged and the velocity zero. -/
theorem moveStep_corner_stop (m : Map) (size : Point2d) (fraction : ℚ)
    (cols : Finset Collision) (pos vel : Point2d) :
    (m.test_box (pos + vel * fraction) size = true →
      m.test_box ⟨pos.x, (pos + vel * fraction).y⟩ size = false →
      m.test_box ⟨(pos + vel * fraction).x, pos.y⟩ size = false →
      m.moveStep size fraction (cols, pos, vel) =
        (insert Collision.CORNER cols, pos, ⟨0, 0⟩)) ∧
    (∀ (cols2 : Finset Collision) (pos2 : Point2d),
      (m.moveStep size fraction (cols2, pos2, ⟨0, 0⟩)).2.1 = pos2 ∧
      (m.moveStep size fraction (cols2, pos2, ⟨0, 0⟩)).2.2 = (⟨0, 0⟩ : Point2d)) := by
  constructor
  · intro h1 h2 h3
    simp only [Map.moveStep, h1, h2, h3, Bool.or_self, Bool.false_eq_true, if_true, if_false]
  · intro cols2 pos2
    have hnp : pos2 + (⟨0, 0⟩ : Point2d) * fraction = pos2 := point_add_zero_smul pos2 fraction
    refine ⟨?_, ?_⟩ <;>
      · simp only [Map.moveStep, hnp]
        split_ifs <;> simp [ite_self]

/-- C5, witness: a body moving diagonally into a single isolated solid tile
exactly on the diagonal (neither single-axis test collides) fully stops at
its old position with zero velocity and `Collision.CORNER` reported. -/
theorem moveStep_corner_stop_witness :
    Map.moveStep ⟨2, 2, [0, 0, 0, 1]⟩ ⟨0, 0⟩ 1 (∅, ⟨30, 30⟩, ⟨40, 40⟩) =
      (insert Collision.CORNER ∅, ⟨30, 30⟩, ⟨0, 0⟩) := by
  have h := (moveStep_corner_stop ⟨2, 2, [0, 0, 0, 1]⟩ ⟨0, 0⟩ 1 ∅ ⟨30, 30⟩ ⟨40, 40⟩).1
    (by with_unfolding_all decide) (by with_unfolding_all decide)
    (by with_unfolding_all decide)
  exact h.trans (by with_unfolding_all decide)

/-- C6: `move_box` with zero velocity from a position whose box is not
embedded in solid tiles returns the position unchanged, zero velocity, and an
empty collision set. -/
theorem move_box_zero_velocity (m : Map) (pos size : Point2d)
    (h : m.test_box pos size = false) :
    m.move_box pos ⟨0, 0⟩ size = (∅, pos, ⟨0, 0⟩) := by
  have hq : qfloor ((⟨0, 0⟩ : Point2d).x * (⟨0, 0⟩ : Point2d).x +
      (⟨0, 0⟩ : Point2d).y * (⟨0, 0⟩ : Point2d).y) = 0 := by
    rw [qfloor_eq_floor]
    norm_num
  simp only [Map.move_box, hq]
  norm_num
  rw [Map.moveLoop, Map.moveLoop]
  rw [moveStep_nocol m size 1 ∅ pos ⟨0, 0⟩ (by rwa [point_add_zero_smul])]
  rw [point_add_zero_smul]

/-- C6, witness: on an all-air 1×1 map, `move_box` from `(5, 5)` with zero
velocity is the identity with an empty collision set. -/
theorem move_box_zero_velocity_witness :
    Map.move_box ⟨1, 1, [0]⟩ ⟨5, 5⟩ ⟨0, 0⟩ ⟨64, 64⟩ = (∅, ⟨5, 5⟩, ⟨0, 0⟩) :=
  move_box_zero_velocity ⟨1, 1, [0]⟩ ⟨5, 5⟩ ⟨64, 64⟩ (by with_unfolding_all decide)

/-- C7: for a well-formed map (width ≥ 1, height ≥ 1,
`tiles.length = width * height`) and arbitrary integer query coordinates,
the index computed by `get_tile` — truncating division by the 64-unit tile
size, then clamping each axis — is nonnegative, below `width * height`, and
in particular inside the `tiles` list. -/
theorem tileIndex_in_bounds (m : Map) (x y : ℤ) (hw : 1 ≤ m.width) (hh : 1 ≤ m.height)
    (hlen : m.tiles.length = m.width * m.height) :
    0 ≤ m.tileIndex x y ∧ m.tileIndex x y < (m.width : ℤ) * (m.height : ℤ) ∧
      (m.tileIndex x y).toNat < m.tiles.length := by
  have hw' : (1 : ℤ) ≤ (m.width : ℤ) := by exact_mod_cast hw
  have hh' : (1 : ℤ) ≤ (m.height : ℤ) := by exact_mod_cast hh
  have hx1 : 0 ≤ min (max (Int.tdiv x 64) 0) ((m.width : ℤ) - 1) :=
    le_min (le_max_right _ _) (by omega)
  have hx2 : min (max (Int.tdiv x 64) 0) ((m.width : ℤ) - 1) ≤ (m.width : ℤ) - 1 :=
    min_le_right _ _
  have hy1 : 0 ≤ min (max (Int.tdiv y 64) 0) ((m.height : ℤ) - 1) :=
    le_min (le_max_right _ _) (by omega)
  have hy2 : min (max (Int.tdiv y 64) 0) ((m.height : ℤ) - 1) ≤ (m.height : ℤ) - 1 :=
    min_le_right _ _
  have hidx0 : 0 ≤ m.tileIndex x y := by
    rw [Map.tileIndex]
    exact add_nonneg (mul_nonneg hy1 (by omega)) hx1
  have hidx1 : m.tileIndex x y < (m.width : ℤ) * (m.height : ℤ) := by
    rw [Map.tileIndex]
    have h3 : min (max (Int.tdiv y 64) 0) ((m.height : ℤ) - 1) * (m.width : ℤ) ≤
        ((m.height : ℤ) - 1) * (m.width : ℤ) :=
      mul_le_mul_of_nonneg_right hy2 (by omega)
    have h4 : ((m.height : ℤ) - 1) * (m.width : ℤ) =
        (m.width : ℤ) * (m.height : ℤ) - (m.width : ℤ) := by ring
    linarith
  refine ⟨hidx0, hidx1, ?_⟩
  rw [hlen, Int.toNat_lt hidx0]
  push_cast
  exact hidx1

/-- C7, witness: a well-formed 2×2 map queried a million units out of bounds
still indexes inside the tile list. -/
theorem tileIndex_in_bounds_witness :
    0 ≤ Map.tileIndex ⟨2, 2, [0, 0, 0, 0]⟩ 1000000 (-1000000) ∧
      Map.tileIndex ⟨2, 2, [0, 0, 0, 0]⟩ 1000000 (-1000000) < (2 : ℤ) * (2 : ℤ) ∧
      (Map.tileIndex ⟨2, 2, [0, 0, 0, 0]⟩ 1000000 (-1000000)).toNat <
        ([0, 0, 0, 0] : List ℤ).length :=
  tileIndex_in_bounds ⟨2, 2, [0, 0, 0, 0]⟩ 1000000 (-1000000)
    (by decide) (by decide) (by decide)

/-- C10: non-penetration: if the box is not in collision at the starting
position, it is not in collision at the position `move_box` returns (each
sub-step only commits a candidate that passed the full box test, passed the
corresponding single-axis test after freezing the colliding axis, or equals
the previous safe position). -/
theorem move_box_no_penetration (m : Map) (pos vel size : Point2d)
    (h : m.test_box pos size = false) :
    m.test_box (m.move_box pos vel size).2.1 size = false := by
  simp only [Map.move_box]
  split_ifs with hd
  · exact h
  · exact moveLoop_pos_safe m size _ _ (∅, pos, vel) h

/-- C10, witness: falling through air on a map with a solid floor row, the
returned position is still collision-free. -/
theorem move_box_no_penetration_witness :
    Map.test_box ⟨1, 2, [0, 1]⟩
      (Map.move_box ⟨1, 2, [0, 1]⟩ ⟨32, 20⟩ ⟨0, 9⟩ ⟨64, 64⟩).2.1 ⟨64, 64⟩ = false :=
  move_box_no_penetration ⟨1, 2, [0, 1]⟩ ⟨32, 20⟩ ⟨0, 9⟩ ⟨64, 64⟩
    (by with_unfolding_all decide)

theorem loadMapAux_pos (fileName : String) (w0 : ℕ) (hw : 0 < w0) :
    ∀ (rows : List (List ℤ)) (h0 : ℕ) (t0 : List ℤ),
      loadMapAux fileName rows w0 h0 t0 =
        if ∀ r ∈ rows, r.length = w0 then
          Except.ok ⟨w0, h0 + rows.length, t0 ++ rows.flatten⟩
        else Except.error ("Incompatible line length in map " ++ fileName) := by
  intro rows
  induction rows with
  | nil =>
    intro h0 t0
    simp [loadMapAux]
  | cons r rest ih =>
    intro h0 t0
    simp only [loadMapAux]
    by_cases hr : r.length = w0
    · rw [if_neg (fun hcontra => hcontra.2 hr.symm)]
      rw [hr, ih (h0 + 1) (t0 ++ r)]
      by_cases hall : ∀ x ∈ rest, x.length = w0
      · rw [if_pos hall, if_pos ?side]
        case side =>
          intro x hx
          rcases List.mem_cons.mp hx with h | h
          · rw [h]; exact hr
          · exact hall x h
        rw [List.flatten_cons, ← List.append_assoc, List.length_cons]
        have hh : h0 + 1 + rest.length = h0 + (rest.length + 1) := by omega
        rw [hh]
      · rw [if_neg hall,
          if_neg (fun hcontra => hall fun x hx => hcontra x (List.mem_cons_of_mem r hx))]
    · rw [if_pos ⟨hw, fun he => hr he.symm⟩,
        if_neg (fun hcontra => hr (hcontra r (List.mem_cons_self r rest)))]

/-- C8: map construction from parsed rows fails with a format error iff some
row's element count disagrees with the first row's, and on success yields
`width` equal to the common row length, `height` equal to the number of rows,
and `tiles.length = width * height`.  The hypothesis — every row except
possibly the last is nonempty — holds for every row list the source parser
can produce: a non-final line of the file ends in a newline character, and a
line whose words are all empty would have its trailing `"\x0a"` word fed to
`int`, which raises before the row is counted. -/
theorem loadMap_spec (fileName : String) (rows : List (List ℤ))
    (hne : ∀ r ∈ rows.dropLast, r ≠ ([] : List ℤ)) :
    ((∃ e, loadMap fileName rows = Except.error e) ↔
      ∃ r ∈ rows, r.length ≠ (rows.head?.getD []).length) ∧
    (∀ m : Map, loadMap fileName rows = Except.ok m →
      m.width = (rows.head?.getD []).length ∧ m.height = rows.length ∧
        m.tiles.length = m.width * m.height) := by
  cases rows with
  | nil =>
    constructor
    · simp [loadMap, loadMapAux]
    · intro m hm
      simp only [loadMap, loadMapAux, Except.ok.injEq] at hm
      rw [← hm]
      simp
  | cons r0 rest =>
    have hstep : loadMap fileName (r0 :: rest) = loadMapAux fileName rest r0.length 1 r0 := by
      simp [loadMap, loadMapAux]
    by_cases h0 : r0.length = 0
    · have hr0 : r0 = [] := List.length_eq_zero.mp h0
      have hrest : rest = [] := by
        cases rest with
        | nil => rfl
        | cons a l =>
          exact absurd hr0 (hne r0 (by rw [List.dropLast_cons₂]; exact List.mem_cons_self _ _))
      subst hr0
      subst hrest
      constructor
      · simp [loadMap, loadMapAux]
      · intro m hm
        simp only [loadMap, loadMapAux] at hm
        rw [if_neg (by simp)] at hm
        injection hm with hm'
        rw [← hm']
        simp
    · have hpos : 0 < r0.length := Nat.pos_of_ne_zero h0
      rw [loadMapAux_pos fileName r0.length hpos rest 1 r0] at hstep
      by_cases hall : ∀ x ∈ rest, x.length = r0.length
      · rw [if_pos hall] at hstep
        constructor
        · rw [hstep]
          constructor
          · rintro ⟨e, he⟩
            exact absurd he (by simp)
          · rintro ⟨r, hr, hner⟩
            rcases List.mem_cons.mp hr with rfl | hmem
            · exact absurd (by simp) hner
            · exact absurd (by simp [hall r hmem]) hner
        · intro m hm
          rw [hstep] at hm
          injection hm with hm'
          rw [← hm']
          refine ⟨by simp, by simp [Nat.add_comm], ?_⟩
          simp only [List.length_append, List.length_flatten]
          have hrep : List.map List.length rest = List.replicate rest.length r0.length := by
            rw [List.eq_replicate_iff]
            refine ⟨by simp, ?_⟩
            intro b hb
            obtain ⟨x, hx, rfl⟩ := List.mem_map.mp hb
            exact hall x hx
          rw [hrep, List.sum_replicate, smul_eq_mul]
          ring
      · rw [if_neg hall] at hstep
        push_neg at hall
        obtain ⟨r, hr, hner⟩ := hall
        constructor
        · rw [hstep]
          constructor
          · intro _
            exact ⟨r, List.mem_cons_of_mem r0 hr, by simpa using hner⟩
          · intro _
            exact ⟨_, rfl⟩
        · intro m hm
          rw [hstep] at hm
          exact absurd hm (by simp)

/-- C8, witness: rows `"0 0 0"` then `"0 0"` fail construction with a format
error. -/
theorem loadMap_spec_witness :
    ∃ e, loadMap ("default.map") [[0, 0, 0], [0, 0]] = Except.error e := by
  refine ((loadMap_spec ("default.map") [[0, 0, 0], [0, 0]] (by decide)).1).mpr ?_
  exact ⟨[0, 0], by simp, by decide⟩

theorem truncQ_eq (q : ℚ) : truncQ q = if 0 ≤ q then ⌊q⌋ else ⌈q⌉ := by
  rw [truncQ]
  simp only [qfloor_eq_floor, Int.floor_neg, neg_neg]

theorem truncQ_mono {a b : ℚ} (h : a ≤ b) : truncQ a ≤ truncQ b := by
  rw [truncQ_eq, truncQ_eq]
  split_ifs with h1 h2 h2
  · exact Int.floor_le_floor h
  · exact absurd (le_trans h1 h) h2
  · calc ⌈a⌉ ≤ 0 := Int.ceil_le.mpr (by push_cast; linarith)
      _ ≤ ⌊b⌋ := Int.le_floor.mpr (by push_cast; linarith)
  · exact Int.ceil_le_ceil h

theorem truncQ_nonneg {q : ℚ} (h : 0 ≤ q) : 0 ≤ truncQ q := by
  rw [truncQ_eq, if_pos h]
  exact Int.floor_nonneg.mpr h

theorem rangeZ_append {a b c : ℤ} (hab : a ≤ b) (hbc : b ≤ c) :
    rangeZ a b ++ rangeZ b c = rangeZ a c := by
  have h1 : (c - a).toNat = (b - a).toNat + (c - b).toNat := by omega
  rw [rangeZ, rangeZ, rangeZ, h1, List.range_add, List.map_append, List.map_map]
  congr 1
  apply List.map_congr_left
  intro i _
  simp only [Function.comp_apply]
  push_cast
  omega

theorem getLast_map_getD (e : ℚ) (rest : List ℚ) (last : ℤ) :
    ((e :: rest).getLast?.map currentTick).getD last =
      (rest.getLast?.map currentTick).getD (currentTick e) := by
  cases rest with
  | nil => rfl
  | cons r rs =>
    rw [List.getLast?_cons_cons]
    obtain ⟨v, hv⟩ := Option.isSome_iff_exists.mp (List.getLast?_isSome.mpr
      (List.cons_ne_nil r rs))
    rw [hv]
    rfl

theorem tickList_spec (samples : List ℚ) :
    ∀ last : ℤ, List.Chain' (· ≤ ·) samples →
      (∀ e ∈ samples.head?, last ≤ currentTick e) →
      tickList last samples = rangeZ last ((samples.getLast?.map currentTick).getD last) ∧
        last ≤ (samples.getLast?.map currentTick).getD last := by
  induction samples with
  | nil =>
    intro last _ _
    refine ⟨?_, le_refl last⟩
    simp [tickList, rangeZ]
  | cons e rest ih =>
    intro last hchain hhead
    have hle : last ≤ currentTick e := hhead e rfl
    obtain ⟨hhead2, hchain2⟩ := List.chain'_cons'.mp hchain
    have hmono : ∀ e2 ∈ rest.head?, currentTick e ≤ currentTick e2 := fun e2 he2 =>
      truncQ_mono (mul_le_mul_of_nonneg_right (hhead2 e2 he2) (by norm_num))
    obtain ⟨heq, hle2⟩ := ih (currentTick e) hchain2 hmono
    rw [getLast_map_getD e rest last]
    constructor
    · rw [tickList, heq, rangeZ_append hle hle2]
    · exact le_trans hle hle2

/-- C9: for a nondecreasing sequence of nonnegative elapsed-seconds samples,
the fixed-step loop — which each frame computes
`currentTick = int(elapsed * 50)` and runs physics once per tick in
`range(last_tick, currentTick)` — processes, over the whole run, exactly the
ticks `0, 1, ..., finalTick - 1`, each exactly once and in order: no tick is
skipped or double-counted, and a frame whose tick equals the previous one
runs zero updates. -/
theorem fixed_step_ticks_once (samples : List ℚ)
    (hmono : List.Chain' (· ≤ ·) samples) (hnonneg : ∀ e ∈ samples, 0 ≤ e) :
    tickList 0 samples = rangeZ 0 (finalTick samples) := by
  have hhead : ∀ e ∈ samples.head?, (0 : ℤ) ≤ currentTick e := fun e he =>
    truncQ_nonneg (mul_nonneg (hnonneg e (List.mem_of_mem_head? he)) (by norm_num))
  obtain ⟨heq, _⟩ := tickList_spec samples 0 hmono hhead
  rw [heq]
  congr 1
  cases h : samples.getLast? with
  | none =>
    rw [finalTick, h]
    have h0 : currentTick ((none : Option ℚ).getD 0) = 0 := by
      rw [currentTick, truncQ_eq]
      simp
    rw [h0]
    rfl
  | some v =>
    rw [finalTick, h]
    rfl

/-- C9, witness: the spec's example — elapsed samples yielding the tick
sequence 0, 0, 1, 1, 2 at 50 Hz process exactly the ticks 0 and 1, once
each. -/
theorem fixed_step_ticks_once_witness :
    tickList 0 [0, 1/100, 1/50, 3/100, 1/25] = rangeZ 0 2 := by
  have h := fixed_step_ticks_once [0, 1/100, 1/50, 3/100, 1/25]
    (by norm_num [List.chain'_cons, List.chain'_singleton]) (by with_unfolding_all decide)
  exact h.trans (by with_unfolding_all decide)

set_option maxRecDepth 10000 in
/-- C1, counterexample: a tick with the restart intent set does NOT end in
exactly `(spawn, zero velocity)`: on an all-air 1×1 map the tick continues
after the reset, so gravity moves the player to `(170, 500.75)` with velocity
`(0, 0.75)` (the source `physics` has no early return after `restart()`). -/
theorem physics_restart_cex :
    (Game.physics ⟨⟨1, 1, [0]⟩, ⟨⟨0, 0⟩, ⟨0, 0⟩⟩, ⟨false, false, false, true⟩⟩).player ≠
      Player.restartState := by
  with_unfolding_all decide

/-- C1, amended: when the restart intent is set, the tick first resets the
player to the spawn point with zero velocity, and then the remainder of the
tick (ground check, jump, gravity, horizontal blending, clamping, `move_box`)
runs as usual from that reset state; the post-tick state is the result of one
normal tick body applied to `(spawn, zero velocity)`. -/
theorem physics_restart_runs_tick (g : Game) (h : g.inputs.restart = true) :
    g.physics = ⟨g.map, physicsBody g.map g.inputs Player.restartState, g.inputs⟩ := by
  simp only [Game.physics, physicsBody, h, eq_self_iff_true, if_true]

/-- C1, witness: the amended claim at a concrete game state with the restart
intent set. -/
theorem physics_restart_runs_tick_witness :
    Game.physics ⟨⟨1, 1, [0]⟩, ⟨⟨3, 4⟩, ⟨5, 6⟩⟩, ⟨false, false, false, true⟩⟩ =
      ⟨⟨1, 1, [0]⟩, physicsBody ⟨1, 1, [0]⟩ ⟨false, false, false, true⟩ Player.restartState,
        ⟨false, false, false, true⟩⟩ :=
  physics_restart_runs_tick ⟨⟨1, 1, [0]⟩, ⟨⟨3, 4⟩, ⟨5, 6⟩⟩, ⟨false, false, false, true⟩⟩ rfl

end Plat
